import Mathlib

/-!
Verification development for the Votex feedback-analysis backend.

The repository contains a modular package (`utils/redaction.py`,
`core/llm.py`, `services/feedback.py`, `api/routes/report.py`,
`models/schemas.py`) together with a legacy monolithic `main.py` that
duplicates the same pipeline with small behavioural differences.  Both
variants are embedded here where they differ.

Conventions of the shallow embedding:
* Python strings are Lean `String`s; all scanning is done on `String.data`
  (a `List Char`).  Inputs of interest are ASCII, so the Python regex
  classes `\d`, `\w`, `[A-Za-z]` are modelled by the corresponding ASCII
  character tests.
* `re.sub` is modelled by an explicit left-to-right scanner with the
  leftmost, greedy-with-backtracking match semantics of the concrete
  patterns used by the code.
* Fallible Python code is modelled with `Except PyErr`; a bare
  `try/except Exception` is a `match` that maps every `.error` to the
  fallback value.
* The external LLM is a black box: each component takes a function
  `Nat → CallOutcome …` giving the outcome of the n-th invocation of the
  wrapped operation (1-indexed, matching `range(1, MAX_RETRIES + 1)`).
  `json.loads` on the returned text is external library code and is
  modelled by its result: a response body is either `.notJson`
  (raises `JSONDecodeError`) or `.json j` for a parsed value `j`.
-/

/-! ## Character classes used by the redaction regexes

`utils/redaction.py` applies, in order,
`re.sub(r"\b\d{6,}\b", "[REDACTED]", text)` and then
`re.sub(r"[A-Za-z0-9._%+-]+@[A-Za-z0-9.-]+\.[A-Za-z]{2,}", "[REDACTED]", text)`.
-/

/-- ASCII word character, the `\w` class relevant to `\b` boundaries. -/
def isWordChar (c : Char) : Bool := c.isAlphanum || c = '_'

/-- Local-part characters of the email pattern: `[A-Za-z0-9._%+-]`. -/
def isLocalChar (c : Char) : Bool :=
  c.isAlphanum || c = '.' || c = '_' || c = '%' || c = '+' || c = '-'

/-- Domain characters of the email pattern: `[A-Za-z0-9.-]`. -/
def isDomainChar (c : Char) : Bool := c.isAlphanum || c = '.' || c = '-'

/-- The replacement token `[REDACTED]` as a character list. -/
def token : List Char := ['[', 'R', 'E', 'D', 'A', 'C', 'T', 'E', 'D', ']']

/-! ## The digit-run substitution `re.sub(r"\b\d{6,}\b", "[REDACTED]", ·)`

A match of `\b\d{6,}\b` is a maximal run of decimal digits, of length at
least 6, whose neighbouring characters (if any) are non-word characters.
The substitution is modelled as a single left-to-right pass: the scanner
either copies characters (tracking whether the previous character was a
word character, which decides the `\b` before a run) or collects a digit
run that started at a boundary and decides at its end whether to replace
it by the token. -/

/-- Scanner state: either plain copying (with the word-ness of the
previous character), or collecting a digit run that started at a word
boundary (digits stored in reverse). -/
inductive DState
  | norm (prevWord : Bool)
  | coll (acc : List Char)

/-- Word-boundary test after a digit run: end of string, or a non-word
character. -/
def boundAt : List Char → Bool
  | [] => true
  | c :: _ => !(isWordChar c)

/-- Flush a collected digit run `acc` (stored reversed): it is replaced
by the token exactly when it has length at least 6 and the following
character (head of `rest`) is absent or a non-word character. -/
def dflush (acc : List Char) (rest : List Char) : List Char :=
  if 6 ≤ acc.length && boundAt rest then token else acc.reverse

/-- One pass of the digit-run substitution. -/
def dsub : DState → List Char → List Char
  | .norm _, [] => []
  | .coll acc, [] => dflush acc []
  | .norm p, c :: cs =>
    if c.isDigit then
      if p then c :: dsub (.norm true) cs
      else dsub (.coll [c]) cs
    else c :: dsub (.norm (isWordChar c)) cs
  | .coll acc, c :: cs =>
    if c.isDigit then dsub (.coll (c :: acc)) cs
    else dflush acc (c :: cs) ++ c :: dsub (.norm (isWordChar c)) cs

/-! ## The email substitution
`re.sub(r"[A-Za-z0-9._%+-]+@[A-Za-z0-9.-]+\.[A-Za-z]{2,}", "[REDACTED]", ·)`

A match starting at a given position consists of: the maximal non-empty
run of local-part characters (since `@` is not a local character, greedy
matching with backtracking succeeds only with the maximal run) followed
by `@`, then `[A-Za-z0-9.-]+\.[A-Za-z]{2,}`: the greedy engine takes the
longest domain prefix `d` (within the maximal domain-character run) such
that the next character is `.` followed by at least two letters; the TLD
is the maximal letter run there. -/

/-- Length of the maximal `[A-Za-z]` run, the greedy `[A-Za-z]{2,}` TLD. -/
def tldLen (v : List Char) : Nat := (v.takeWhile Char.isAlpha).length

/-- Backtracking search for the domain part after the `@`: try domain
lengths `d, d-1, …, 1` (longest first, as the greedy engine does) and
return the total length `domain ++ "." ++ tld` on the first success. -/
def tryDom (u : List Char) : Nat → Option Nat
  | 0 => none
  | d + 1 =>
    match u.drop (d + 1) with
    | '.' :: v => if 2 ≤ tldLen v then some ((d + 1) + 1 + tldLen v) else tryDom u d
    | _ => tryDom u d

/-- Domain-plus-TLD match after the `@`, starting from the maximal
domain-character run. -/
def findDomain (u : List Char) : Option Nat :=
  tryDom u (u.takeWhile isDomainChar).length

/-- Length of the email-pattern match starting exactly at the head of
`s`, if any. -/
def matchEmailAt (s : List Char) : Option Nat :=
  if (s.takeWhile isLocalChar).isEmpty then none
  else
    match s.drop (s.takeWhile isLocalChar).length with
    | '@' :: u => (findDomain u).map (fun dl => (s.takeWhile isLocalChar).length + 1 + dl)
    | _ => none

/-- One pass of the email substitution: at each position try a match;
on success emit the token and skip the matched characters (the `skip`
counter consumes the remainder of a match one character at a time so the
recursion stays structural). -/
def esub (skip : Nat) : List Char → List Char
  | [] => []
  | c :: cs =>
    match skip with
    | k + 1 => esub k cs
    | 0 =>
      match matchEmailAt (c :: cs) with
      | some len => token ++ esub (len - 1) cs
      | none => c :: esub 0 cs

/-- `redact_pii` on character lists: digit-run substitution first, then
the email substitution, exactly as `utils/redaction.py` iterates over
`PII_PATTERNS`. -/
def redactL (l : List Char) : List Char := esub 0 (dsub (.norm false) l)

/-- `redact_pii` from `utils/redaction.py` (same patterns as `main.py`). -/
def redact_pii (s : String) : String := ⟨redactL s.data⟩

/-! ## Match-existence predicates (positional reading of the patterns) -/

/-- Length of the maximal digit run at the head of the list. -/
def dRunLen (l : List Char) : Nat := (l.takeWhile Char.isDigit).length

/-- Does a `\b\d{6,}\b` match start exactly here?  `p` is the word-ness
of the previous character (`false` at the start of the string). -/
def dmatchAt (p : Bool) (l : List Char) : Bool :=
  match l with
  | [] => false
  | c :: _ => !p && c.isDigit && decide (6 ≤ dRunLen l) && boundAt (l.dropWhile Char.isDigit)

/-- Does a `\b\d{6,}\b` match start at any position? -/
def hasDM : Bool → List Char → Bool
  | _, [] => false
  | p, c :: cs => dmatchAt p (c :: cs) || hasDM (isWordChar c) cs

/-- Does an email-pattern match start at any position? -/
def hasEM : List Char → Bool
  | [] => false
  | c :: cs => (matchEmailAt (c :: cs)).isSome || hasEM cs

/-- Does the text contain a run of 6 or more consecutive decimal digits
(anywhere, regardless of word boundaries)? -/
def hasSixDigitRun : List Char → Bool
  | [] => false
  | c :: cs => decide (6 ≤ dRunLen (c :: cs)) || hasSixDigitRun cs


/-! ## Theory of the digit-run substitution -/

/-- Continuation after a flushed run: the boundary character is copied
and scanning resumes in the normal state. -/
def tailPart : List Char → List Char
  | [] => []
  | c :: cs => c :: dsub (.norm (isWordChar c)) cs

/-- Word-ness of the character preceding the given suffix: the flag the
scanner carries after consuming `u` starting from flag `b`. -/
def flagAfter (b : Bool) : List Char → Bool
  | [] => b
  | c :: cs => flagAfter (isWordChar c) cs

theorem digit_word {c : Char} (h : c.isDigit = true) : isWordChar c = true := by
  simp [isWordChar, Char.isAlphanum, h]

theorem dmatchAt_true (l : List Char) : dmatchAt true l = false := by
  cases l <;> simp [dmatchAt]

theorem hasDM_cons_nd {c : Char} (p : Bool) (cs : List Char) (h : c.isDigit = false) :
    hasDM p (c :: cs) = hasDM (isWordChar c) cs := by
  simp [hasDM, dmatchAt, h]

/-- The collect phase, solved: collecting over `rest` flushes the run
`acc.reverse ++ takeWhile isDigit rest` against the boundary at
`dropWhile isDigit rest` and then continues normally. -/
theorem dsub_coll (rest : List Char) : ∀ acc : List Char,
    dsub (.coll acc) rest =
      dflush ((rest.takeWhile Char.isDigit).reverse ++ acc) (rest.dropWhile Char.isDigit)
        ++ tailPart (rest.dropWhile Char.isDigit) := by
  induction rest with
  | nil => intro acc; simp [dsub, tailPart, dflush]
  | cons c cs ih =>
    intro acc
    by_cases hc : c.isDigit
    · rw [List.takeWhile_cons_of_pos hc, List.dropWhile_cons_of_pos hc]
      have : dsub (.coll acc) (c :: cs) = dsub (.coll (c :: acc)) cs := by simp [dsub, hc]
      rw [this, ih (c :: acc)]
      simp [List.reverse_cons, List.append_assoc]
    · rw [List.takeWhile_cons_of_neg hc, List.dropWhile_cons_of_neg hc]
      simp [dsub, hc, tailPart]

theorem hasDM_append_false : ∀ (u : List Char) (b : Bool) (v : List Char),
    hasDM b (u ++ v) = false → hasDM (flagAfter b u) v = false := by
  intro u
  induction u with
  | nil => intro b v h; exact h
  | cons c u' ih =>
    intro b v h
    rw [List.cons_append] at h
    rw [hasDM] at h
    rcases Bool.or_eq_false_iff.mp h with ⟨_, h2⟩
    exact ih (isWordChar c) v h2

theorem flagAfter_append (b : Bool) : ∀ u v : List Char,
    flagAfter b (u ++ v) = flagAfter (flagAfter b u) v := by
  intro u
  induction u generalizing b with
  | nil => intro v; rfl
  | cons c u' ih => intro v; simp [flagAfter, ih]

theorem dropWhile_head_false {p : Char → Bool} :
    ∀ (l : List Char) {c : Char} {cs : List Char}, l.dropWhile p = c :: cs → p c = false := by
  intro l
  induction l with
  | nil => intro c cs h; simp [List.dropWhile] at h
  | cons a l' ih =>
    intro c cs h
    by_cases ha : p a
    · rw [List.dropWhile_cons_of_pos ha] at h; exact ih h
    · rw [List.dropWhile_cons_of_neg ha] at h
      cases h
      exact Bool.of_not_eq_true ha

/-- If no digit-pattern match starts anywhere (in context `p`), the
digit substitution is the identity. -/
theorem dsub_id_aux : ∀ n : Nat, ∀ l : List Char, l.length ≤ n → ∀ p : Bool,
    hasDM p l = false → dsub (.norm p) l = l := by
  intro n
  induction n with
  | zero =>
    intro l hl p _
    have hnil : l = [] := List.length_eq_zero.mp (Nat.le_zero.mp hl)
    subst hnil; rfl
  | succ n ih =>
    intro l hl p h
    cases l with
    | nil => rfl
    | cons c cs =>
      rw [hasDM] at h
      rcases Bool.or_eq_false_iff.mp h with ⟨hm, ht⟩
      by_cases hc : c.isDigit
      · have hw : isWordChar c = true := digit_word hc
        rw [hw] at ht
        by_cases hp : p
        · subst hp
          have hstep : dsub (.norm true) (c :: cs) = c :: dsub (.norm true) cs := by
            simp [dsub, hc]
          rw [hstep, ih cs (Nat.le_of_succ_le_succ hl) true ht]
        · have hp' : p = false := Bool.of_not_eq_true hp
          subst hp'
          have hstep : dsub (.norm false) (c :: cs) = dsub (.coll [c]) cs := by
            simp [dsub, hc]
          rw [hstep, dsub_coll]
          have hcond : (decide (6 ≤ dRunLen (c :: cs))
              && boundAt (cs.dropWhile Char.isDigit)) = false := by
            rw [dmatchAt] at hm
            rw [List.dropWhile_cons_of_pos hc] at hm
            simpa [hc] using hm
          have hA : ((cs.takeWhile Char.isDigit).reverse ++ [c]).length
              = dRunLen (c :: cs) := by
            simp [dRunLen, List.takeWhile_cons_of_pos hc]
          have hflush : dflush ((cs.takeWhile Char.isDigit).reverse ++ [c])
              (cs.dropWhile Char.isDigit) = c :: cs.takeWhile Char.isDigit := by
            rw [dflush, hA, hcond]
            simp
          rw [hflush]
          cases hrest : cs.dropWhile Char.isDigit with
          | nil =>
            have hcs : cs.takeWhile Char.isDigit = cs := by
              have := List.takeWhile_append_dropWhile Char.isDigit cs
              rw [hrest] at this
              simpa using this
            simp [tailPart, hcs]
          | cons d ds =>
            have hd : d.isDigit = false := dropWhile_head_false cs hrest
            have hcs : cs = (cs.takeWhile Char.isDigit ++ [d]) ++ ds := by
              conv_lhs => rw [← List.takeWhile_append_dropWhile Char.isDigit cs]
              rw [hrest]
              simp
            have hlds : ds.length ≤ n := by
              have h1 : (cs.dropWhile Char.isDigit).length ≤ cs.length :=
                (List.dropWhile_sublist Char.isDigit).length_le
              rw [hrest] at h1
              have h2 : cs.length ≤ n := by
                have := hl
                simp [List.length_cons] at this
                omega
              simp [List.length_cons] at h1
              omega
            have hflag : flagAfter true (cs.takeWhile Char.isDigit ++ [d]) = isWordChar d := by
              rw [flagAfter_append]
              simp [flagAfter]
            have hmds : hasDM (isWordChar d) ds = false := by
              have := hasDM_append_false (cs.takeWhile Char.isDigit ++ [d]) true ds
                (by rw [← hcs]; exact ht)
              rwa [hflag] at this
            rw [tailPart, ih ds hlds (isWordChar d) hmds]
            conv_rhs => rw [hcs]
            simp
      · have hstep : dsub (.norm p) (c :: cs) = c :: dsub (.norm (isWordChar c)) cs := by
          simp [dsub, hc]
        rw [hstep, ih cs (Nat.le_of_succ_le_succ hl) (isWordChar c) ht]

/-- No-match inputs are fixed points of the digit substitution. -/
theorem dsub_id (l : List Char) (p : Bool) (h : hasDM p l = false) :
    dsub (.norm p) l = l :=
  dsub_id_aux l.length l (Nat.le_refl _) p h

theorem tok_step (b : Bool) (t : List Char) : hasDM b (token ++ t) = hasDM false t := by
  show hasDM b ('[' :: 'R' :: 'E' :: 'D' :: 'A' :: 'C' :: 'T' :: 'E' :: 'D' :: ']' :: t)
      = hasDM false t
  have h1 : ('[' : Char).isDigit = false := by decide
  have h2 : ('R' : Char).isDigit = false := by decide
  have h3 : ('E' : Char).isDigit = false := by decide
  have h4 : ('D' : Char).isDigit = false := by decide
  have h5 : ('A' : Char).isDigit = false := by decide
  have h6 : ('C' : Char).isDigit = false := by decide
  have h7 : ('T' : Char).isDigit = false := by decide
  have h8 : (']' : Char).isDigit = false := by decide
  have hw : isWordChar ']' = false := by decide
  rw [hasDM_cons_nd _ _ h1, hasDM_cons_nd _ _ h2, hasDM_cons_nd _ _ h3, hasDM_cons_nd _ _ h4,
    hasDM_cons_nd _ _ h5, hasDM_cons_nd _ _ h6, hasDM_cons_nd _ _ h7, hasDM_cons_nd _ _ h3,
    hasDM_cons_nd _ _ h4, hasDM_cons_nd _ _ h8, hw]

theorem run_step : ∀ (R : List Char), (∀ c ∈ R, c.isDigit = true) → ∀ t : List Char,
    hasDM true (R ++ t) = hasDM true t := by
  intro R
  induction R with
  | nil => intro _ t; rfl
  | cons d R' ih =>
    intro hall t
    have hd : d.isDigit = true := hall d (List.mem_cons_self _ _)
    rw [List.cons_append, hasDM, dmatchAt_true, digit_word hd]
    simp only [Bool.false_or]
    exact ih (fun c hc => hall c (List.mem_cons_of_mem _ hc)) t

/-- The output of the digit substitution contains no digit-pattern
match: the substitution is exhaustive and introduces no new match. -/
theorem dsub_nomatch_aux : ∀ n : Nat, ∀ l : List Char, l.length ≤ n → ∀ p : Bool,
    hasDM p (dsub (.norm p) l) = false := by
  intro n
  induction n with
  | zero =>
    intro l hl p
    have hnil : l = [] := List.length_eq_zero.mp (Nat.le_zero.mp hl)
    subst hnil; rfl
  | succ n ih =>
    intro l hl p
    cases l with
    | nil => rfl
    | cons c cs =>
      have hlcs : cs.length ≤ n := Nat.le_of_succ_le_succ hl
      by_cases hc : c.isDigit
      · by_cases hp : p
        · subst hp
          have hstep : dsub (.norm true) (c :: cs) = c :: dsub (.norm true) cs := by
            simp [dsub, hc]
          rw [hstep, hasDM, dmatchAt_true, digit_word hc]
          simp only [Bool.false_or]
          exact ih cs hlcs true
        · have hp' : p = false := Bool.of_not_eq_true hp
          subst hp'
          have hstep : dsub (.norm false) (c :: cs) = dsub (.coll [c]) cs := by
            simp [dsub, hc]
          rw [hstep, dsub_coll]
          have htw_all : ∀ a ∈ cs.takeWhile Char.isDigit, a.isDigit = true :=
            fun a ha => List.mem_takeWhile_imp ha
          have hA : ((cs.takeWhile Char.isDigit).reverse ++ [c]).length
              = (cs.takeWhile Char.isDigit).length + 1 := by simp
          by_cases hcond : (decide (6 ≤ ((cs.takeWhile Char.isDigit).reverse ++ [c]).length)
              && boundAt (cs.dropWhile Char.isDigit)) = true
          · have hflush : dflush ((cs.takeWhile Char.isDigit).reverse ++ [c])
                (cs.dropWhile Char.isDigit) = token := by
              rw [dflush, if_pos hcond]
            rw [hflush, tok_step]
            cases hrest : cs.dropWhile Char.isDigit with
            | nil => rfl
            | cons d ds =>
              have hd : d.isDigit = false := dropWhile_head_false cs hrest
              have hlds : ds.length ≤ n := by
                have h1 : (cs.dropWhile Char.isDigit).length ≤ cs.length :=
                  (List.dropWhile_sublist Char.isDigit).length_le
                rw [hrest] at h1
                simp [List.length_cons] at h1
                omega
              rw [tailPart, hasDM_cons_nd _ _ hd]
              exact ih ds hlds (isWordChar d)
          · have hflush : dflush ((cs.takeWhile Char.isDigit).reverse ++ [c])
                (cs.dropWhile Char.isDigit) = c :: cs.takeWhile Char.isDigit := by
              rw [dflush, if_neg hcond]
              simp [List.reverse_append]
            rw [hflush, List.cons_append, hasDM]
            have hsecond : hasDM (isWordChar c)
                (cs.takeWhile Char.isDigit ++ tailPart (cs.dropWhile Char.isDigit)) = false := by
              rw [digit_word hc, run_step _ htw_all]
              cases hrest : cs.dropWhile Char.isDigit with
              | nil => rfl
              | cons d ds =>
                have hd : d.isDigit = false := dropWhile_head_false cs hrest
                have hlds : ds.length ≤ n := by
                  have h1 : (cs.dropWhile Char.isDigit).length ≤ cs.length :=
                    (List.dropWhile_sublist Char.isDigit).length_le
                  rw [hrest] at h1
                  simp [List.length_cons] at h1
                  omega
                rw [tailPart, hasDM, dmatchAt_true]
                simp only [Bool.false_or]
                exact ih ds hlds (isWordChar d)
            have hfirst : dmatchAt false
                (c :: (cs.takeWhile Char.isDigit ++ tailPart (cs.dropWhile Char.isDigit)))
                = false := by
              cases hrest : cs.dropWhile Char.isDigit with
              | nil =>
                have hcond' : decide
                    (6 ≤ ((cs.takeWhile Char.isDigit).reverse ++ [c]).length) = false := by
                  rw [hrest] at hcond
                  simpa [boundAt] using hcond
                rw [tailPart, List.append_nil, dmatchAt]
                have htake : (c :: cs.takeWhile Char.isDigit).takeWhile Char.isDigit
                    = c :: cs.takeWhile Char.isDigit := by
                  rw [List.takeWhile_cons_of_pos hc]
                  congr 1
                  exact List.takeWhile_idem
                have hlen : dRunLen (c :: cs.takeWhile Char.isDigit)
                    = (cs.takeWhile Char.isDigit).length + 1 := by
                  rw [dRunLen, htake]; simp
                rw [hlen]
                rw [hA] at hcond'
                simp only [hc, Bool.not_false, Bool.true_and, hcond', Bool.false_and]
              | cons d ds =>
                have hd : d.isDigit = false := dropWhile_head_false cs hrest
                rw [tailPart, dmatchAt]
                have htake : (c :: (cs.takeWhile Char.isDigit
                    ++ d :: dsub (.norm (isWordChar d)) ds)).takeWhile Char.isDigit
                    = c :: cs.takeWhile Char.isDigit := by
                  rw [List.takeWhile_cons_of_pos hc, List.takeWhile_append_of_pos htw_all,
                    List.takeWhile_cons_of_neg (by simp [hd])]
                  simp
                have hdrop : (c :: (cs.takeWhile Char.isDigit
                    ++ d :: dsub (.norm (isWordChar d)) ds)).dropWhile Char.isDigit
                    = d :: dsub (.norm (isWordChar d)) ds := by
                  rw [List.dropWhile_cons_of_pos hc, List.dropWhile_append_of_pos htw_all,
                    List.dropWhile_cons_of_neg (by simp [hd])]
                have hlen : dRunLen (c :: (cs.takeWhile Char.isDigit
                    ++ d :: dsub (.norm (isWordChar d)) ds))
                    = (cs.takeWhile Char.isDigit).length + 1 := by
                  rw [dRunLen, htake]; simp
                rw [hdrop, hlen]
                rw [hrest] at hcond
                rw [hA] at hcond
                have hcond2 : (decide (6 ≤ (cs.takeWhile Char.isDigit).length + 1)
                    && boundAt (d :: ds)) = false := by
                  exact Bool.of_not_eq_true hcond
                have hbd : boundAt (d :: dsub (.norm (isWordChar d)) ds) = boundAt (d :: ds) := by
                  simp [boundAt]
                rw [hbd]
                simp only [hc, Bool.not_false, Bool.true_and]
                exact hcond2
            rw [hfirst, hsecond]
            rfl
      · have hstep : dsub (.norm p) (c :: cs) = c :: dsub (.norm (isWordChar c)) cs := by
          simp [dsub, hc]
        rw [hstep, hasDM_cons_nd _ _ (Bool.of_not_eq_true hc)]
        exact ih cs hlcs (isWordChar c)

/-- The digit substitution is idempotent. -/
theorem dsub_idem (l : List Char) :
    dsub (.norm false) (dsub (.norm false) l) = dsub (.norm false) l :=
  dsub_id (dsub (.norm false) l) false (dsub_nomatch_aux l.length l (Nat.le_refl _) false)

/-! ## Theory of the email substitution -/

/-- If no email-pattern match starts anywhere, the email substitution is
the identity. -/
theorem esub_id : ∀ l : List Char, hasEM l = false → esub 0 l = l := by
  intro l
  induction l with
  | nil => intro _; rfl
  | cons c cs ih =>
    intro h
    rw [hasEM] at h
    rcases Bool.or_eq_false_iff.mp h with ⟨h1, h2⟩
    have hm : matchEmailAt (c :: cs) = none := by
      cases hmm : matchEmailAt (c :: cs) with
      | none => rfl
      | some k => rw [hmm] at h1; simp at h1
    simp [esub, hm, ih h2]

/-- An email-pattern match always contains an `@`. -/
theorem matchEmailAt_mem_at {l : List Char} {k : Nat}
    (h : matchEmailAt l = some k) : '@' ∈ l := by
  rw [matchEmailAt] at h
  split at h
  · simp at h
  · split at h
    next u heq =>
      have hmem : '@' ∈ l.drop (l.takeWhile isLocalChar).length := by
        rw [heq]; exact List.mem_cons_self _ _
      exact List.drop_subset _ _ hmem
    next => simp at h

/-- A string without `@` has no email-pattern match. -/
theorem at_free_no_email {l : List Char} (h : '@' ∉ l) : hasEM l = false := by
  induction l with
  | nil => rfl
  | cons c cs ih =>
    have h1 : '@' ∉ cs := fun hm => h (List.mem_cons_of_mem _ hm)
    rw [hasEM]
    have hm : matchEmailAt (c :: cs) = none := by
      cases hmm : matchEmailAt (c :: cs) with
      | none => rfl
      | some k => exact absurd (matchEmailAt_mem_at hmm) h
    simp [hm, ih h1]

/-- The pending digits of a scanner state. -/
def stAcc : DState → List Char
  | .norm _ => []
  | .coll acc => acc

/-- The digit substitution never introduces an `@`. -/
theorem at_free_dsub : ∀ (l : List Char) (st : DState),
    '@' ∉ l → '@' ∉ stAcc st → '@' ∉ dsub st l := by
  intro l
  induction l with
  | nil =>
    intro st hl hst
    cases st with
    | norm p => simp [dsub]
    | coll acc =>
      show '@' ∉ dflush acc []
      rw [dflush]
      by_cases hcnd : (6 ≤ acc.length && boundAt ([] : List Char)) = true
      · rw [if_pos hcnd]; decide
      · rw [if_neg hcnd]
        simpa using hst
  | cons c cs ih =>
    intro st hl hst
    have htl : '@' ∉ cs := fun hm => hl (List.mem_cons_of_mem _ hm)
    have hhd : ('@' : Char) ≠ c := fun he => hl (by rw [he]; exact List.mem_cons_self _ _)
    cases st with
    | norm p =>
      by_cases hd : c.isDigit
      · by_cases hp : p
        · subst hp
          have hstep : dsub (.norm true) (c :: cs) = c :: dsub (.norm true) cs := by
            simp [dsub, hd]
          rw [hstep]
          intro hmem
          rcases List.mem_cons.mp hmem with he | hm
          · exact hhd he
          · exact ih (.norm true) htl (by simp [stAcc]) hm
        · have hp' : p = false := Bool.of_not_eq_true hp
          subst hp'
          have hstep : dsub (.norm false) (c :: cs) = dsub (.coll [c]) cs := by
            simp [dsub, hd]
          rw [hstep]
          apply ih (.coll [c]) htl
          simp only [stAcc, List.mem_singleton]
          exact hhd
      · have hstep : dsub (.norm p) (c :: cs) = c :: dsub (.norm (isWordChar c)) cs := by
          simp [dsub, hd]
        rw [hstep]
        intro hmem
        rcases List.mem_cons.mp hmem with he | hm
        · exact hhd he
        · exact ih (.norm (isWordChar c)) htl (by simp [stAcc]) hm
    | coll acc =>
      by_cases hd : c.isDigit
      · have hstep : dsub (.coll acc) (c :: cs) = dsub (.coll (c :: acc)) cs := by
          simp [dsub, hd]
        rw [hstep]
        apply ih (.coll (c :: acc)) htl
        intro hmem
        rcases List.mem_cons.mp hmem with he | hm
        · exact hhd he
        · exact hst (by simpa [stAcc] using hm)
      · have hstep : dsub (.coll acc) (c :: cs)
            = dflush acc (c :: cs) ++ c :: dsub (.norm (isWordChar c)) cs := by
          simp [dsub, hd]
        rw [hstep]
        intro hmem
        rcases List.mem_append.mp hmem with hf | hm
        · rw [dflush] at hf
          by_cases hcnd : (6 ≤ acc.length && boundAt (c :: cs)) = true
          · rw [if_pos hcnd] at hf
            exact absurd hf (by decide)
          · rw [if_neg hcnd] at hf
            exact hst (by simpa [stAcc] using hf)
        · rcases List.mem_cons.mp hm with he | hm2
          · exact hhd he
          · exact ih (.norm (isWordChar c)) htl (by simp [stAcc]) hm2

/-- On `@`-free input, `redact_pii` is just the digit substitution. -/
theorem redactL_at_free {l : List Char} (h : '@' ∉ l) :
    redactL l = dsub (.norm false) l := by
  rw [redactL]
  exact esub_id _ (at_free_no_email (at_free_dsub l (.norm false) h (by simp [stAcc])))

/-! ## Claims C1 and C9 -/

/-- Claim C1, counterexample to the claim as stated: `redact_pii` leaves
the input `"a123456"` unchanged, so its output still contains a run of 6
consecutive decimal digits and contains no `[REDACTED]` token (the digit
pattern `\b\d{6,}\b` does not match a run preceded by the word character
`a`). -/
theorem C1_counterexample :
    redact_pii "a123456" = "a123456" ∧ hasSixDigitRun ("a123456".data) = true := by
  exact ⟨by decide, by decide⟩

/-- Claim C1, amended: `redact_pii` replaces only word-boundary-delimited
runs of 6 or more digits and email-pattern matches; for any input that
contains no match of either pattern the output equals the input exactly. -/
theorem C1_theorem (s : String) (h1 : hasDM false s.data = false)
    (h2 : hasEM s.data = false) : redact_pii s = s := by
  rw [redact_pii, redactL, dsub_id _ _ h1, esub_id _ h2]

/-- Witness for `C1_theorem` at a concrete pattern-free input. -/
theorem C1_witness :
    hasDM false ("no pii here".data) = false ∧ hasEM ("no pii here".data) = false ∧
      redact_pii "no pii here" = "no pii here" :=
  ⟨by decide, by decide, C1_theorem "no pii here" (by decide) (by decide)⟩

/-- Claim C9, counterexample: `redact_pii` is not idempotent.  On
`"123a@b.cd456789"` the email pass replaces `"123a@b.cd"`, exposing the
digit run `456789` directly after the inserted `]`; the second
application then matches it with `\b\d{6,}\b` and redacts it too. -/
theorem C9_counterexample :
    redact_pii (redact_pii "123a@b.cd456789") ≠ redact_pii "123a@b.cd456789" := by
  decide

/-- Claim C9, amended: `redact_pii` is idempotent on every input that
contains no `@` (hence no email-shaped substring); in general a second
application can additionally redact digit runs newly exposed at word
boundaries by the email replacement. -/
theorem C9_theorem (s : String) (h : '@' ∉ s.data) :
    redact_pii (redact_pii s) = redact_pii s := by
  have hd : '@' ∉ dsub (.norm false) s.data :=
    at_free_dsub s.data (.norm false) h (by simp [stAcc])
  have h1 : redact_pii s = ⟨dsub (.norm false) s.data⟩ := by
    rw [redact_pii, redactL_at_free h]
  rw [h1, redact_pii]
  show String.mk (redactL (dsub (.norm false) s.data)) = _
  rw [redactL, dsub_idem s.data, esub_id _ (at_free_no_email hd)]

/-- Witness for `C9_theorem` at a concrete `@`-free input. -/
theorem C9_witness :
    '@' ∉ ("id 123456 ok".data) ∧
      redact_pii (redact_pii "id 123456 ok") = redact_pii "id 123456 ok" :=
  ⟨by decide, C9_theorem "id 123456 ok" (by decide)⟩

/-! ## Retry wrapper, `core/llm.py` `send_with_retry`

The wrapped operation is a black box described by `op : Nat → CallOutcome α`
giving the outcome of its n-th invocation (1-indexed): it returns a value,
raises `groq.RateLimitError`, or raises another `groq.APIError` (which also
stands for any other non-rate-limit exception, since the code re-raises
both immediately).  `retryGo op attempt rem` models the remaining `rem`
iterations of `for attempt in range(1, MAX_RETRIES + 1)`, and returns the
result together with the number of invocations performed.  `attempt <
MAX_RETRIES` holds exactly when at least one further iteration remains. -/

/-- Python exception kinds distinguished by the embedded code. -/
inductive PyErr
  | rateLimitError
  | apiError
  | attrError
  | keyError
  | typeError
  | jsonDecodeError
  | validationError
deriving DecidableEq

/-- Outcome of one invocation of the wrapped operation. -/
inductive CallOutcome (α : Type)
  | ok (a : α)
  | rateLimit
  | apiError
deriving DecidableEq

/-- Result of the wrapper: a returned value, a propagated exception, or
the fall-through `return None` after the loop. -/
inductive RetryResult (α : Type)
  | returned (a : α)
  | raised (e : PyErr)
  | fellThrough
deriving DecidableEq

/-- The retry loop from iteration `attempt`, with `rem` iterations left. -/
def retryGo {α : Type} (op : Nat → CallOutcome α) (attempt : Nat) :
    Nat → RetryResult α × Nat
  | 0 => (.fellThrough, 0)
  | rem + 1 =>
    match op attempt with
    | .ok a => (.returned a, 1)
    | .rateLimit =>
      if rem = 0 then (.raised .rateLimitError, 1)
      else ((retryGo op (attempt + 1) rem).1, (retryGo op (attempt + 1) rem).2 + 1)
    | .apiError => (.raised .apiError, 1)

/-- `send_with_retry` from `core/llm.py`: result and invocation count. -/
def send_with_retry {α : Type} (op : Nat → CallOutcome α) (maxRetries : Nat) :
    RetryResult α × Nat :=
  retryGo op 1 maxRetries

theorem retry_ok_after {α : Type} (op : Nat → CallOutcome α) (a : α) :
    ∀ (k rem att : Nat), k < rem →
      (∀ i, att ≤ i → i < att + k → op i = .rateLimit) →
      op (att + k) = .ok a →
      retryGo op att rem = (.returned a, k + 1) := by
  intro k
  induction k with
  | zero =>
    intro rem att hk _ hok
    cases rem with
    | zero => omega
    | succ r =>
      rw [Nat.add_zero] at hok
      simp [retryGo, hok]
  | succ k ih =>
    intro rem att hk hrl hok
    cases rem with
    | zero => omega
    | succ r =>
      have h1 : op att = .rateLimit := hrl att (Nat.le_refl _) (by omega)
      have hr : ¬(r = 0) := by omega
      have h2 : retryGo op (att + 1) r = (.returned a, k + 1) := by
        apply ih r (att + 1) (by omega) (fun i hi1 hi2 => hrl i (by omega) (by omega))
        rw [show att + 1 + k = att + (k + 1) by omega]
        exact hok
      simp [retryGo, h1, hr, h2]
  
theorem retry_all_rl {α : Type} (op : Nat → CallOutcome α)
    (h : ∀ i, op i = .rateLimit) :
    ∀ rem, 1 ≤ rem → ∀ att, retryGo op att rem = (.raised .rateLimitError, rem) := by
  intro rem
  induction rem with
  | zero => intro h1; omega
  | succ r ih =>
    intro _ att
    by_cases hr : r = 0
    · subst hr
      simp [retryGo, h att]
    · have h2 : retryGo op (att + 1) r = (.raised .rateLimitError, r) :=
        ih (by omega) (att + 1)
      simp [retryGo, h att, hr, h2]

theorem retry_api_first {α : Type} (op : Nat → CallOutcome α) (att : Nat)
    (h : op att = .apiError) :
    ∀ rem, 1 ≤ rem → retryGo op att rem = (.raised .apiError, 1) := by
  intro rem h1
  cases rem with
  | zero => omega
  | succ r => simp [retryGo, h]

theorem retry_no_fallthrough {α : Type} (op : Nat → CallOutcome α) :
    ∀ rem, 1 ≤ rem → ∀ att, (retryGo op att rem).1 ≠ .fellThrough := by
  intro rem
  induction rem with
  | zero => intro h1; omega
  | succ r ih =>
    intro _ att
    cases hop : op att with
    | ok a => simp [retryGo, hop]
    | rateLimit =>
      by_cases hr : r = 0
      · subst hr; simp [retryGo, hop]
      · simp only [retryGo, hop, if_neg hr]
        exact ih (by omega) (att + 1)
    | apiError => simp [retryGo, hop]

/-- Claim C2 (confirmed, for the modular wrapper in `core/llm.py`):
(i) if the operation rate-limits exactly `k` times with `k < maxRetries`
and then succeeds, the wrapper returns the success value after exactly
`k + 1` invocations; (ii) if it rate-limits on every invocation, the
wrapper invokes it exactly `maxRetries` times and propagates the
rate-limit error; (iii) if it fails with a non-rate-limit error on the
first invocation, the wrapper invokes it exactly once and propagates. -/
theorem C2_theorem {α : Type} (op : Nat → CallOutcome α) (mr k : Nat) (a : α) :
    (k < mr → (∀ i, 1 ≤ i → i ≤ k → op i = .rateLimit) → op (k + 1) = .ok a →
        send_with_retry op mr = (.returned a, k + 1))
    ∧ ((∀ i, op i = .rateLimit) → 1 ≤ mr →
        send_with_retry op mr = (.raised .rateLimitError, mr))
    ∧ (op 1 = .apiError → 1 ≤ mr →
        send_with_retry op mr = (.raised .apiError, 1)) := by
  refine ⟨?_, ?_, ?_⟩
  · intro hk hrl hok
    exact retry_ok_after op a k mr 1 hk (fun i h1 h2 => hrl i h1 (by omega))
      (by rw [show (1 : Nat) + k = k + 1 by omega]; exact hok)
  · intro hrl hmr
    exact retry_all_rl op hrl mr hmr 1
  · intro h1 hmr
    exact retry_api_first op 1 h1 mr hmr

/-- Operation that rate-limits twice and then succeeds with `7`. -/
def opC2a : Nat → CallOutcome Nat := fun i => if i ≤ 2 then .rateLimit else .ok 7

/-- Witness for `C2_theorem`: the three scenarios at concrete inputs,
with `maxRetries = 5`. -/
theorem C2_witness :
    send_with_retry opC2a 5 = (.returned 7, 3)
    ∧ send_with_retry (fun _ => (CallOutcome.rateLimit : CallOutcome Nat)) 5
        = (.raised .rateLimitError, 5)
    ∧ send_with_retry (fun _ => (CallOutcome.apiError : CallOutcome Nat)) 5
        = (.raised .apiError, 1) :=
  ⟨(C2_theorem opC2a 5 2 7).1 (by decide) (fun i _ h2 => by simp [opC2a, h2]) (by decide),
   (C2_theorem (fun _ => (CallOutcome.rateLimit : CallOutcome Nat)) 5 0 0).2.1
     (fun _ => rfl) (by decide),
   (C2_theorem (fun _ => (CallOutcome.apiError : CallOutcome Nat)) 5 0 0).2.2
     rfl (by decide)⟩

/-- Claim C10 (confirmed): with `MAX_RETRIES ≥ 1` the modular wrapper
either returns the operation's value or raises; the trailing
`return None` after the loop is unreachable. -/
theorem C10_theorem {α : Type} (op : Nat → CallOutcome α) (mr : Nat) (h : 1 ≤ mr) :
    (send_with_retry op mr).1 ≠ RetryResult.fellThrough :=
  retry_no_fallthrough op mr h 1

/-- Witness for `C10_theorem` at the default `MAX_RETRIES = 5`. -/
theorem C10_witness :
    (1 : Nat) ≤ 5 ∧
      (send_with_retry (fun _ => (CallOutcome.rateLimit : CallOutcome Nat)) 5).1
        ≠ RetryResult.fellThrough :=
  ⟨by decide, C10_theorem (fun _ => (CallOutcome.rateLimit : CallOutcome Nat)) 5 (by decide)⟩

/-! ## JSON values and the Python dict operations used by the pipeline

`json.loads` may produce any JSON value; floats and numeric-string
coercions are not needed by any claim and are not modelled. -/

/-- JSON values. -/
inductive Json
  | null
  | bool (b : Bool)
  | int (n : Int)
  | str (s : String)
  | arr (xs : List Json)
  | obj (kvs : List (String × Json))

/-- Association lookup in a JSON object, first binding wins. -/
def jLookup : List (String × Json) → String → Option Json
  | [], _ => none
  | (k, v) :: rest, key => if k = key then some v else jLookup rest key

/-- Key lookup on a JSON value (`none` on non-objects). -/
def Json.get : Json → String → Option Json
  | .obj kvs, key => jLookup kvs key
  | _, _ => none

/-- Python truthiness of a JSON value (`if not result[...]`). -/
def pyTruthy : Json → Bool
  | .null => false
  | .bool b => b
  | .int n => decide (n ≠ 0)
  | .str s => decide (s ≠ "")
  | .arr xs => !xs.isEmpty
  | .obj kvs => !kvs.isEmpty

/-- Python `j[key]`: `KeyError` when missing, `TypeError` on non-dicts. -/
def pyGetItem (j : Json) (key : String) : Except PyErr Json :=
  match j with
  | .obj kvs =>
    match jLookup kvs key with
    | some v => .ok v
    | none => .error .keyError
  | _ => .error .typeError

/-- Python `j.get(key, dflt)`: `AttributeError` on non-dicts. -/
def pyDictGet (j : Json) (key : String) (dflt : Json) : Except PyErr Json :=
  match j with
  | .obj kvs => .ok ((jLookup kvs key).getD dflt)
  | _ => .error .attrError

/-! ## Item classifier, `services/feedback.py` `analyze_feedback`

The completion response is modelled by `Resp ContentModel`: either the
`choices` access fails (`noChoices`, an `AttributeError`/`IndexError`),
or there is a content string, represented by its `json.loads` status. -/

/-- A completion response body. -/
inductive Resp (α : Type)
  | noChoices
  | content (c : α)
deriving DecidableEq

/-- A content string as seen by `json.loads`: unparseable, or parsed. -/
inductive ContentModel
  | notJson
  | json (j : Json)

/-- The safe default of the classifier: both flags false, text redacted
with the regex fallback. -/
def defaultClassification (text : String) : Json :=
  Json.obj [("contains_inappropriate", Json.bool false), ("contains_pii", Json.bool false),
    ("cleaned_text", Json.str (redact_pii text))]

/-- The `try` body of `analyze_feedback`: call through the retry wrapper,
read `resp.choices[0].message.content`, parse it as JSON and return the
parsed dict unchanged. -/
def classifyBody (op : Nat → CallOutcome (Resp ContentModel)) (mr : Nat) : Except PyErr Json :=
  match (send_with_retry op mr).1 with
  | .raised e => .error e
  | .fellThrough => .error .attrError
  | .returned .noChoices => .error .attrError
  | .returned (.content .notJson) => .error .jsonDecodeError
  | .returned (.content (.json j)) => .ok j

/-- `analyze_feedback` from `services/feedback.py`: the whole body is
wrapped in `try/except Exception`, falling back to the safe default. -/
def analyze_feedback (text : String) (op : Nat → CallOutcome (Resp ContentModel))
    (mr : Nat) : Except PyErr Json :=
  match classifyBody op mr with
  | .error _ => .ok (defaultClassification text)
  | .ok j => .ok j

/-- Did the LLM path fail (exhausted retries, non-retryable error, empty
response, or non-JSON response)? -/
def llmPathFails : RetryResult (Resp ContentModel) → Bool
  | .returned (.content (.json _)) => false
  | _ => true

/-- On every failing LLM path the classifier returns the safe default. -/
theorem classify_fallback (text : String) (op : Nat → CallOutcome (Resp ContentModel))
    (mr : Nat) (hf : llmPathFails (send_with_retry op mr).1 = true) :
    analyze_feedback text op mr = .ok (defaultClassification text) := by
  rw [analyze_feedback, classifyBody]
  cases hres : (send_with_retry op mr).1 with
  | returned r =>
    cases r with
    | noChoices => rfl
    | content cm =>
      cases cm with
      | notJson => rfl
      | json j => rw [hres, llmPathFails] at hf; exact absurd hf (by simp)
  | raised e => rfl
  | fellThrough => rfl

/-- The classifier never propagates an exception. -/
theorem classify_no_raise (text : String) (op : Nat → CallOutcome (Resp ContentModel))
    (mr : Nat) : ∀ e, analyze_feedback text op mr ≠ .error e := by
  intro e
  rw [analyze_feedback]
  cases classifyBody op mr <;> simp

/-- Claim C3 (confirmed): for every input text and every LLM behaviour,
`analyze_feedback` never raises, and whenever the LLM path fails
(exhausted retries, non-retryable provider error, empty response,
non-JSON response) it returns exactly the safe default with both flags
false and `cleaned_text = redact_pii text`. -/
theorem C3_theorem (text : String) (op : Nat → CallOutcome (Resp ContentModel)) (mr : Nat) :
    (∀ e, analyze_feedback text op mr ≠ .error e)
    ∧ (llmPathFails (send_with_retry op mr).1 = true →
        analyze_feedback text op mr = .ok (defaultClassification text)) :=
  ⟨classify_no_raise text op mr, classify_fallback text op mr⟩

/-- Witness for `C3_theorem`: an operation that always rate-limits. -/
theorem C3_witness :
    llmPathFails (send_with_retry
        (fun _ => (CallOutcome.rateLimit : CallOutcome (Resp ContentModel))) 5).1 = true
    ∧ analyze_feedback "call me 5551234567"
        (fun _ => (CallOutcome.rateLimit : CallOutcome (Resp ContentModel))) 5
        = .ok (defaultClassification "call me 5551234567") :=
  ⟨rfl, ( C3_theorem "call me 5551234567"
    (fun _ => (CallOutcome.rateLimit : CallOutcome (Resp ContentModel))) 5).2 rfl⟩

/-- Does a classification result carry all three expected fields? -/
def hasAllFieldsB (j : Json) : Bool :=
  (j.get "contains_inappropriate").isSome && (j.get "contains_pii").isSome
    && (j.get "cleaned_text").isSome

/-- A valid-JSON response that is missing the two flag fields. -/
def missingFieldsObj : Json := Json.obj [("cleaned_text", Json.str "ok")]

/-- Claim C7, counterexample to the claim as stated: a response that is
valid JSON but lacks the expected fields is returned verbatim by the
classifier, so the classifier's result does not contain all three
expected fields (and the later `result["contains_inappropriate"]` lookup
in the route raises, surfacing an internal error). -/
theorem C7_counterexample :
    analyze_feedback "t"
        (fun _ => CallOutcome.ok (Resp.content (ContentModel.json missingFieldsObj))) 5
        = .ok missingFieldsObj
    ∧ hasAllFieldsB missingFieldsObj = false :=
  ⟨rfl, rfl⟩

/-- Claim C7, amended: empty completions and non-JSON responses are
absorbed at the classifier boundary via the regex-redaction fallback,
whose result contains all three expected fields; a valid-JSON response
is returned as-is, so missing fields are not absorbed there. -/
theorem C7_theorem (text : String) (op : Nat → CallOutcome (Resp ContentModel)) (mr : Nat)
    (hf : llmPathFails (send_with_retry op mr).1 = true) :
    analyze_feedback text op mr = .ok (defaultClassification text)
    ∧ hasAllFieldsB (defaultClassification text) = true :=
  ⟨classify_fallback text op mr hf, rfl⟩

/-- Witness for `C7_theorem`: an empty response (`choices` missing). -/
theorem C7_witness :
    analyze_feedback "w"
        (fun _ => CallOutcome.ok (Resp.noChoices (α := ContentModel))) 5
        = .ok (defaultClassification "w")
    ∧ hasAllFieldsB (defaultClassification "w") = true :=
  C7_theorem "w" (fun _ => CallOutcome.ok (Resp.noChoices (α := ContentModel))) 5 rfl

/-! ## Python string helpers -/

/-- Python `str.strip()` (whitespace from both ends). -/
def trimList (l : List Char) : List Char :=
  ((l.dropWhile Char.isWhitespace).reverse.dropWhile Char.isWhitespace).reverse

/-- Python `str.strip()` on strings. -/
def pyStrip (s : String) : String := ⟨trimList s.data⟩

/-- Python `str.splitlines()`: `\n`, `\r\n` and `\r` all end a line; no
trailing empty line after a final terminator. -/
def splitlinesGo (acc : List Char) : List Char → List (List Char)
  | [] => if acc.isEmpty then [] else [acc.reverse]
  | '\r' :: '\n' :: rest => acc.reverse :: splitlinesGo [] rest
  | '\n' :: rest => acc.reverse :: splitlinesGo [] rest
  | '\r' :: rest => acc.reverse :: splitlinesGo [] rest
  | c :: rest => splitlinesGo (c :: acc) rest

/-- Python `text.splitlines()`. -/
def pySplitlines (s : String) : List (List Char) := splitlinesGo [] s.data

/-- Python `text.split('\n')` (keeps empty pieces). -/
def splitNlGo (acc : List Char) : List Char → List (List Char)
  | [] => [acc.reverse]
  | c :: rest =>
    if c = '\n' then acc.reverse :: splitNlGo [] rest else splitNlGo (c :: acc) rest

/-- Python `text.split('\n')`. -/
def pySplitNl (s : String) : List (List Char) := splitNlGo [] s.data

/-- Sentence-ending punctuation of the fallback pattern `(?<=[.!?])\s+`. -/
def isPunct (c : Char) : Bool := c = '.' || c = '!' || c = '?'

/-- State of the `re.split(r"(?<=[.!?])\s+", ·)` scanner: scanning a
piece (tracking whether the previous character was `[.!?]`), or consuming
the whitespace run of a split point. -/
inductive SMode
  | norm (prevPunct : Bool)
  | skip

/-- `re.split(r"(?<=[.!?])\s+", text)`: split points are maximal
whitespace runs preceded by sentence punctuation; pieces between split
points are returned, including a trailing empty piece after a final
match. -/
def sentGo (mode : SMode) (acc : List Char) : List Char → List (List Char)
  | [] => [acc.reverse]
  | c :: rest =>
    match mode with
    | .skip =>
      if c.isWhitespace then sentGo .skip acc rest
      else sentGo (.norm (isPunct c)) (c :: acc) rest
    | .norm pp =>
      if c.isWhitespace && pp then acc.reverse :: sentGo .skip [] rest
      else sentGo (.norm (isPunct c)) (c :: acc) rest

/-- The sentence pieces of a text. -/
def pySentPieces (s : String) : List (List Char) := sentGo (.norm false) [] s.data

/-! ## Action-step parsing

Two variants exist in the repository.  `services/feedback.py` checks
`ln.startswith(("-", "*", "â€¢"))` (a mojibake three-character bullet)
and falls back directly to sentence splitting (`[s.strip() for s in
re.split(...) if s]` keeps pieces that are non-empty before stripping).
`main.py` checks `'-'`, `'*'`, `'•'`, has a middle tier guarded by
`not actions and len(lines) > 1` (so it only ever appends while the
action list is still empty), and filters its sentence fallback by
`if s.strip()`. -/

/-- Bullet test of `services/feedback.py`. -/
def isBulletFb (s : List Char) : Bool :=
  match s with
  | '-' :: _ => true
  | '*' :: _ => true
  | 'â' :: '€' :: '¢' :: _ => true
  | _ => false

/-- Bullet pass of `services/feedback.py`: strip each line, keep bullet
lines with the first character dropped and the remainder stripped. -/
def bulletPassFb : List (List Char) → List (List Char)
  | [] => []
  | ln :: rest =>
    if isBulletFb (trimList ln) then
      trimList ((trimList ln).drop 1) :: bulletPassFb rest
    else bulletPassFb rest

/-- `parse_action_steps` from `services/feedback.py`. -/
def parse_action_steps (text : String) : List String :=
  let actions := bulletPassFb (pySplitlines text)
  if actions.isEmpty && !(text == "") then
    ((pySentPieces text).filter (fun p => !p.isEmpty)).map (fun p => (⟨trimList p⟩ : String))
  else actions.map (fun a => (⟨a⟩ : String))

/-- Bullet test of `main.py` (proper `•`). -/
def isBulletMain (s : List Char) : Bool :=
  match s with
  | '-' :: _ => true
  | '*' :: _ => true
  | '•' :: _ => true
  | _ => false

/-- The `for line in lines` loop of `main.py`'s `parse_action_steps`:
bullet lines are collected; a non-bullet, non-empty line is collected
only while `actions` is still empty and the text has several lines. -/
def mainLinesLoop (nLines : Nat) (acc : List (List Char)) : List (List Char) → List (List Char)
  | [] => acc
  | ln :: rest =>
    if isBulletMain (trimList ln) then
      mainLinesLoop nLines (acc ++ [trimList ((trimList ln).drop 1)]) rest
    else if acc.isEmpty && decide (1 < nLines) && !(trimList ln).isEmpty then
      mainLinesLoop nLines (acc ++ [trimList ln]) rest
    else mainLinesLoop nLines acc rest

/-- `parse_action_steps` from `main.py`. -/
def parse_action_steps_main (text : String) : List String :=
  let actions := mainLinesLoop (pySplitNl text).length [] (pySplitNl text)
  if actions.isEmpty && !(text == "") then
    (((pySentPieces text).map trimList).filter (fun p => !p.isEmpty)).map
      (fun p => (⟨p⟩ : String))
  else actions.map (fun a => (⟨a⟩ : String))

/-! ## Claim C5: the three-tier parsing examples -/

/-- Claim C5 (code bug): on the spec's three examples, both parser
variants agree with the claim on the bulleted input and on the
single-paragraph input, but both fail the bullet-free multi-line
example: `main.py`'s middle tier is guarded by `not actions`, so it
keeps only the first non-empty line (contradicting its own comment
"use each line"), and `services/feedback.py` has no line tier at all,
so its sentence fallback returns the whole text as one action. -/
theorem C5_theorem :
    parse_action_steps "- a\n- b\n- c" = ["a", "b", "c"]
    ∧ parse_action_steps_main "- a\n- b\n- c" = ["a", "b", "c"]
    ∧ parse_action_steps "Do X. Do Y! Do Z?" = ["Do X.", "Do Y!", "Do Z?"]
    ∧ parse_action_steps_main "Do X. Do Y! Do Z?" = ["Do X.", "Do Y!", "Do Z?"]
    ∧ parse_action_steps "first\nsecond" = ["first\nsecond"]
    ∧ parse_action_steps_main "first\nsecond" = ["first"]
    ∧ parse_action_steps "first\nsecond" ≠ ["first", "second"]
    ∧ parse_action_steps_main "first\nsecond" ≠ ["first", "second"] := by
  refine ⟨by decide, by decide, by decide, by decide, by decide, by decide, by decide, by decide⟩

/-! ## Aggregate analyzer and action summarizer

`services/feedback.py` `comprehensive_analysis` does not guard its
`send_with_retry` call: a propagated exception or a `None` response
escapes to the route.  Only `json.JSONDecodeError` is absorbed, with the
fallback `{"summary": "", "sentiment_analysis": zeros}` — the same shape
as the empty-input short-circuit.  Markdown fences are stripped from the
raw string before parsing; that string-level step is contained in the
parse-status abstraction of `ContentModel`. -/

/-- Which pipeline stages performed an LLM call. -/
inductive CallTag
  | classify (i : Nat)
  | aggregate
  | summarize
deriving DecidableEq

/-- The all-zero sentiment object. -/
def zerosObj : Json :=
  Json.obj [("positive", Json.int 0), ("neutral", Json.int 0), ("negative", Json.int 0)]

/-- Empty-input and JSON-fallback result of the modular analyzer. -/
def fbEmptyObj : Json := Json.obj [("summary", Json.str ""), ("sentiment_analysis", zerosObj)]

/-- `comprehensive_analysis` from `services/feedback.py`, with the list
of LLM calls it performs. -/
def comprehensive_analysis (feedbacks : List Json)
    (op : Nat → CallOutcome (Resp ContentModel)) (mr : Nat) :
    Except PyErr Json × List CallTag :=
  match feedbacks with
  | [] => (.ok fbEmptyObj, [])
  | _ :: _ =>
    match (send_with_retry op mr).1 with
    | .raised e => (.error e, [.aggregate])
    | .fellThrough => (.error .attrError, [.aggregate])
    | .returned .noChoices => (.error .attrError, [.aggregate])
    | .returned (.content .notJson) => (.ok fbEmptyObj, [.aggregate])
    | .returned (.content (.json j)) => (.ok j, [.aggregate])

/-- `main.py`'s retry loop: it swallows failures and returns `None`
(`return None` both on a non-rate-limit `APIError` and on the final
rate-limited attempt). -/
def retryGoMain {α : Type} (op : Nat → CallOutcome α) (attempt : Nat) :
    Nat → Option α × Nat
  | 0 => (none, 0)
  | rem + 1 =>
    match op attempt with
    | .ok a => (some a, 1)
    | .rateLimit =>
      if rem = 0 then (none, 1)
      else ((retryGoMain op (attempt + 1) rem).1, (retryGoMain op (attempt + 1) rem).2 + 1)
    | .apiError => (none, 1)

/-- `send_with_retry` from `main.py`. -/
def send_with_retry_main {α : Type} (op : Nat → CallOutcome α) (maxRetries : Nat) :
    Option α × Nat :=
  retryGoMain op 1 maxRetries

/-- Content of an aggregate response in `main.py`: parsed JSON, or an
unparseable string represented by what the scraping regexes
(`"summary": "..."`, `"positive": digits`, …) find in it. -/
inductive AggMain
  | json (j : Json)
  | notJson (sum : Option String) (p : Option Nat) (neu : Option Nat) (neg : Option Nat)

/-- Empty-input result of `main.py`'s analyzer. -/
def noDataObjMain : Json :=
  Json.obj [("summary", Json.str "No feedback data available to analyze."),
    ("sentiment_analysis", zerosObj)]

/-- Failed-call result of `main.py`'s analyzer. -/
def errObjMain : Json :=
  Json.obj [("summary", Json.str "Error generating feedback analysis."),
    ("sentiment_analysis", zerosObj)]

/-- Scraping fallback of `main.py`'s analyzer for unparseable output. -/
def scrapedObjMain (sum : Option String) (p neu neg : Option Nat) : Json :=
  Json.obj [("summary", Json.str (sum.getD "Error parsing analysis results.")),
    ("sentiment_analysis", Json.obj [("positive", Json.int (p.getD 0)),
      ("neutral", Json.int (neu.getD 0)), ("negative", Json.int (neg.getD 0))])]

/-- `comprehensive_analysis` from `main.py` (never raises: its retry
wrapper returns `None` on failure and every parse failure is scraped). -/
def comprehensive_analysis_main (items : List Json)
    (op : Nat → CallOutcome (Resp AggMain)) (mr : Nat) : Json × List CallTag :=
  match items with
  | [] => (noDataObjMain, [])
  | _ :: _ =>
    match (send_with_retry_main op mr).1 with
    | none => (errObjMain, [.aggregate])
    | some .noChoices => (errObjMain, [.aggregate])
    | some (.content (.json j)) => (j, [.aggregate])
    | some (.content (.notJson s p neu neg)) => (scrapedObjMain s p neu neg, [.aggregate])

/-- `summarize_category` from `services/feedback.py`: empty input gives
`""` with no call; a `None` response gives `""` (the `if resp else ""`);
a response without choices raises; otherwise the stripped content. -/
def summarize_category (items : List Json) (op : Nat → CallOutcome (Resp String))
    (mr : Nat) : Except PyErr String × List CallTag :=
  match items with
  | [] => (.ok "", [])
  | _ :: _ =>
    match (send_with_retry op mr).1 with
    | .raised e => (.error e, [.summarize])
    | .fellThrough => (.ok "", [.summarize])
    | .returned .noChoices => (.error .attrError, [.summarize])
    | .returned (.content s) => (.ok (pyStrip s), [.summarize])

/-! ## Schemas and the report route, `models/schemas.py` and
`api/routes/report.py`

`SentimentAnalysis` has plain `int` fields (pydantic does not constrain
their sign); `SentimentAnalysis(**counts)` raises a validation error on
a missing key or a non-integer value, coerces `bool` (a Python `int`
subtype) and ignores extra keys.  Numeric strings and floats are not
modelled.  The route has no `try/except`: any exception propagates and
surfaces as the framework's generic 500 response (`internalError`). -/

/-- `models/schemas.py` `SentimentAnalysis` (pydantic `int` fields). -/
structure SentimentAnalysis where
  positive : Int
  neutral : Int
  negative : Int
deriving DecidableEq

/-- `models/schemas.py` `FeedbackResponse`. -/
structure FeedbackResponse where
  summary : String
  sentiment : SentimentAnalysis
  actions : List String
  raw_feedback_count : Nat
  clean_feedback_count : Nat

/-- Pydantic `int` coercion of a JSON value. -/
def asInt : Json → Except PyErr Int
  | .int n => .ok n
  | .bool b => .ok (if b then 1 else 0)
  | _ => .error .validationError

/-- `SentimentAnalysis(**counts)`. -/
def mkSentiment (j : Json) : Except PyErr SentimentAnalysis :=
  match j with
  | .obj kvs =>
    match jLookup kvs "positive" with
    | none => .error .validationError
    | some vp =>
      match asInt vp with
      | .error e => .error e
      | .ok p =>
        match jLookup kvs "neutral" with
        | none => .error .validationError
        | some vu =>
          match asInt vu with
          | .error e => .error e
          | .ok nu =>
            match jLookup kvs "negative" with
            | none => .error .validationError
            | some vg =>
              match asInt vg with
              | .error e => .error e
              | .ok ng => .ok ⟨p, nu, ng⟩
  | _ => .error .typeError

/-- Pydantic `str` field coercion. -/
def jsonToStrField : Json → Except PyErr String
  | .str s => .ok s
  | .int n => .ok (toString n)
  | .bool b => .ok (if b then "True" else "False")
  | _ => .error .validationError

/-- The filter condition of the route:
`if not result["contains_inappropriate"] and not result["contains_pii"]`,
collecting `result["cleaned_text"]`; key errors propagate. -/
def keepItem (j : Json) : Except PyErr (Option Json) :=
  match pyGetItem j "contains_inappropriate" with
  | .error e => .error e
  | .ok ci =>
    match pyGetItem j "contains_pii" with
    | .error e => .error e
    | .ok cp =>
      if !pyTruthy ci && !pyTruthy cp then
        match pyGetItem j "cleaned_text" with
        | .error e => .error e
        | .ok ct => .ok (some ct)
      else .ok none

/-- LLM behaviour for one report request: the classify operation for the
i-th feedback item, the aggregate operation, the summarize operation,
and the configured retry bound. -/
structure ReportEnv where
  classifyOp : Nat → Nat → CallOutcome (Resp ContentModel)
  aggregateOp : Nat → CallOutcome (Resp ContentModel)
  summarizeOp : Nat → CallOutcome (Resp String)
  maxRetries : Nat

/-- The classify-and-filter loop of the route, from item index `i`. -/
def filterPhase (env : ReportEnv) : Nat → List String → Except PyErr (List Json) × List CallTag
  | _, [] => (.ok [], [])
  | i, t :: ts =>
    match analyze_feedback t (env.classifyOp i) env.maxRetries with
    | .error e => (.error e, [.classify i])
    | .ok jv =>
      match keepItem jv with
      | .error e => (.error e, [.classify i])
      | .ok none =>
        ((filterPhase env (i + 1) ts).1, .classify i :: (filterPhase env (i + 1) ts).2)
      | .ok (some ct) =>
        ((filterPhase env (i + 1) ts).1.map (fun r => ct :: r),
          .classify i :: (filterPhase env (i + 1) ts).2)

/-- Outcome of the route: a response, the deliberate 422, or an
unhandled exception surfacing as the generic 500. -/
inductive RouteOutcome
  | ok (r : FeedbackResponse)
  | http422
  | internalError (e : PyErr)

/-- `generate_report` from `api/routes/report.py`, together with the
LLM calls performed. -/
def generate_report (feedback : List String) (env : ReportEnv) :
    RouteOutcome × List CallTag :=
  match filterPhase env 0 feedback with
  | (.error e, tags) => (.internalError e, tags)
  | (.ok clean, tags) =>
    if clean.length = 0 then (.http422, tags)
    else
      match comprehensive_analysis clean env.aggregateOp env.maxRetries with
      | (.error e, atags) => (.internalError e, tags ++ atags)
      | (.ok analysis, atags) =>
        match pyDictGet analysis "summary" (Json.str "") with
        | .error e => (.internalError e, tags ++ atags)
        | .ok summaryJ =>
          match pyDictGet analysis "sentiment_analysis" zerosObj with
          | .error e => (.internalError e, tags ++ atags)
          | .ok countsJ =>
            match summarize_category clean env.summarizeOp env.maxRetries with
            | (.error e, stags) => (.internalError e, tags ++ atags ++ stags)
            | (.ok actionText, stags) =>
              match mkSentiment countsJ with
              | .error e => (.internalError e, tags ++ atags ++ stags)
              | .ok senti =>
                match jsonToStrField summaryJ with
                | .error e => (.internalError e, tags ++ atags ++ stags)
                | .ok summaryStr =>
                  (.ok { summary := summaryStr, sentiment := senti,
                         actions := parse_action_steps actionText,
                         raw_feedback_count := feedback.length,
                         clean_feedback_count := clean.length }, tags ++ atags ++ stags)

/-! ## Claim C6: the empty-input short-circuit of the aggregate analyzer -/

/-- Claim C6, counterexample to the claim as stated: the modular
analyzer (`services/feedback.py`) short-circuits on `[]` with an
empty-string summary, not with the "no data" sentinel text. -/
theorem C6_counterexample :
    (comprehensive_analysis []
        (fun _ => (CallOutcome.rateLimit : CallOutcome (Resp ContentModel))) 5).1
      = .ok fbEmptyObj
    ∧ fbEmptyObj.get "summary" = some (Json.str "")
    ∧ ("" : String) ≠ "No feedback data available to analyze." :=
  ⟨rfl, rfl, by decide⟩

/-- Claim C6, amended: on the empty list both aggregate analyzers
return all-zero sentiment counts and make no LLM call; the monolith
(`main.py`) returns the sentinel summary "No feedback data available to
analyze.", while the modular analyzer returns the empty-string summary. -/
theorem C6_theorem (op : Nat → CallOutcome (Resp ContentModel)) (mr : Nat)
    (op2 : Nat → CallOutcome (Resp AggMain)) (mr2 : Nat) :
    comprehensive_analysis [] op mr = (.ok fbEmptyObj, [])
    ∧ comprehensive_analysis_main [] op2 mr2 = (noDataObjMain, []) :=
  ⟨rfl, rfl⟩

/-! ## Claim C4: empty clean list fails with 422 and stops the pipeline -/

theorem filterPhase_tags_classify (env : ReportEnv) :
    ∀ (fb : List String) (i : Nat) (t : CallTag),
      t ∈ (filterPhase env i fb).2 → ∃ k, t = CallTag.classify k := by
  intro fb
  induction fb with
  | nil => intro i t ht; simp [filterPhase] at ht
  | cons x xs ih =>
    intro i t ht
    rw [filterPhase] at ht
    split at ht
    · simp at ht
      exact ⟨i, ht⟩
    · split at ht
      · simp at ht
        exact ⟨i, ht⟩
      · simp at ht
        rcases ht with h | h
        · exact ⟨i, h⟩
        · exact ih (i + 1) t h
      · simp at ht
        rcases ht with h | h
        · exact ⟨i, h⟩
        · exact ih (i + 1) t h

/-- Claim C4 (confirmed, for the modular route in
`api/routes/report.py`): when classification filters out every item,
the route fails with the deliberate 422 (not the generic 500), and the
performed LLM calls contain no aggregate-analysis call and no
action-extraction call. -/
theorem C4_theorem (fb : List String) (env : ReportEnv) (tags : List CallTag)
    (h : filterPhase env 0 fb = (.ok [], tags)) :
    generate_report fb env = (.http422, tags)
    ∧ CallTag.aggregate ∉ tags ∧ CallTag.summarize ∉ tags := by
  refine ⟨?_, ?_, ?_⟩
  · rw [generate_report, h]
    rfl
  · intro hmem
    have h2 : tags = (filterPhase env 0 fb).2 := by rw [h]
    rcases filterPhase_tags_classify env fb 0 _ (h2 ▸ hmem) with ⟨k, hk⟩
    exact CallTag.noConfusion hk
  · intro hmem
    have h2 : tags = (filterPhase env 0 fb).2 := by rw [h]
    rcases filterPhase_tags_classify env fb 0 _ (h2 ▸ hmem) with ⟨k, hk⟩
    exact CallTag.noConfusion hk

/-- A classification naming the item inappropriate. -/
def inappropriateObj : Json :=
  Json.obj [("contains_inappropriate", Json.bool true), ("contains_pii", Json.bool false),
    ("cleaned_text", Json.str "x")]

/-- Environment whose classifier flags every item as inappropriate. -/
def envC4 : ReportEnv :=
  { classifyOp := fun _ _ => .ok (.content (.json inappropriateObj)),
    aggregateOp := fun _ => .rateLimit,
    summarizeOp := fun _ => .rateLimit,
    maxRetries := 5 }

/-- Witness for `C4_theorem` at a concrete fully-filtered request. -/
theorem C4_witness :
    filterPhase envC4 0 ["bad"] = (.ok [], [CallTag.classify 0])
    ∧ generate_report ["bad"] envC4 = (.http422, [CallTag.classify 0])
    ∧ CallTag.aggregate ∉ [CallTag.classify 0] :=
  ⟨rfl, ( C4_theorem ["bad"] envC4 [CallTag.classify 0] rfl).1,
    ( C4_theorem ["bad"] envC4 [CallTag.classify 0] rfl).2.1⟩

/-! ## Claim C8: sign of the sentiment counts in the final report -/

/-- A value returned by the wrapper was produced by some invocation. -/
theorem retry_returned {α : Type} (op : Nat → CallOutcome α) :
    ∀ (rem att : Nat) (a : α), (retryGo op att rem).1 = .returned a →
      ∃ n, op n = .ok a := by
  intro rem
  induction rem with
  | zero => intro att a h; simp [retryGo] at h
  | succ r ih =>
    intro att a h
    rw [retryGo] at h
    cases hop : op att with
    | ok b =>
      rw [hop] at h
      simp at h
      exact ⟨att, by rw [hop, h]⟩
    | rateLimit =>
      rw [hop] at h
      by_cases hr : r = 0
      · subst hr; simp at h
      · rw [if_neg hr] at h
        exact ih (att + 1) a h
    | apiError => rw [hop] at h; simp at h

/-- An `.ok` result of the modular aggregate analyzer is either the
shared zero fallback object or a JSON value returned by the LLM. -/
theorem comp_ok_cases (items : List Json) (op : Nat → CallOutcome (Resp ContentModel))
    (mr : Nat) (j : Json) (tags : List CallTag)
    (h : comprehensive_analysis items op mr = (.ok j, tags)) :
    j = fbEmptyObj ∨ ∃ n, op n = .ok (.content (.json j)) := by
  cases items with
  | nil =>
    rw [comprehensive_analysis] at h
    left
    have := congrArg Prod.fst h
    simp at this
    exact this.symm
  | cons x xs =>
    rw [comprehensive_analysis] at h
    cases hres : (send_with_retry op mr).1 with
    | raised e => rw [hres] at h; simp at h
    | fellThrough => rw [hres] at h; simp at h
    | returned r =>
      rw [hres] at h
      cases r with
      | noChoices => simp at h
      | content cm =>
        cases cm with
        | notJson =>
          left
          have := congrArg Prod.fst h
          simp at this
          exact this.symm
        | json j2 =>
          right
          have hj : j2 = j := by
            have := congrArg Prod.fst h
            simpa using this
          rcases retry_returned op mr 1 _ hres with ⟨n, hn⟩
          exact ⟨n, by rw [hn, hj]⟩

/-- Is this optional count non-negative when it is an integer? -/
def nonnegCount (o : Option Json) : Bool :=
  match o with
  | some (.int n) => decide (0 ≤ n)
  | _ => true

/-- Are the integer counts inside `"sentiment_analysis"` non-negative
(whenever present as an object)? -/
def countsOkB (j : Json) : Bool :=
  match j.get "sentiment_analysis" with
  | some (.obj skvs) =>
    nonnegCount (jLookup skvs "positive") && nonnegCount (jLookup skvs "neutral")
      && nonnegCount (jLookup skvs "negative")
  | _ => true

/-- Every JSON value the aggregate operation can return has non-negative
integer counts. -/
def envAggOk (env : ReportEnv) : Prop :=
  ∀ n j, env.aggregateOp n = .ok (.content (.json j)) → countsOkB j = true

theorem mkSentiment_zeros : mkSentiment zerosObj = .ok ⟨0, 0, 0⟩ := rfl

/-- A validated count whose raw value passed `nonnegCount` is
non-negative. -/
theorem asInt_nonneg (v : Json) (n : Int) (hok : nonnegCount (some v) = true)
    (h : asInt v = .ok n) : 0 ≤ n := by
  cases v with
  | int m =>
    simp [nonnegCount] at hok
    have hmn : m = n := by
      simpa [asInt] using h
    rw [← hmn]
    exact hok
  | bool b =>
    have hbn : (if b then (1 : Int) else 0) = n := by
      simpa [asInt] using h
    rw [← hbn]
    cases b <;> decide
  | null => simp [asInt] at h
  | str s => simp [asInt] at h
  | arr xs => simp [asInt] at h
  | obj kvs => simp [asInt] at h

/-- If the analysis object satisfies `countsOkB` and pydantic validation
of its sentiment counts succeeds, the validated counts are non-negative. -/
theorem mkSentiment_nonneg (analysis countsJ : Json) (senti : SentimentAnalysis)
    (hok : countsOkB analysis = true)
    (hget : pyDictGet analysis "sentiment_analysis" zerosObj = .ok countsJ)
    (hmk : mkSentiment countsJ = .ok senti) :
    0 ≤ senti.positive ∧ 0 ≤ senti.neutral ∧ 0 ≤ senti.negative := by
  cases analysis with
  | obj kvs =>
    rw [pyDictGet] at hget
    have hcj : (jLookup kvs "sentiment_analysis").getD zerosObj = countsJ :=
      Except.ok.inj hget
    cases hsa : jLookup kvs "sentiment_analysis" with
    | none =>
      rw [hsa] at hcj
      simp at hcj
      rw [← hcj, mkSentiment_zeros] at hmk
      have hs := Except.ok.inj hmk
      rw [← hs]
      exact ⟨le_refl 0, le_refl 0, le_refl 0⟩
    | some sa =>
      rw [hsa] at hcj
      simp at hcj
      rw [← hcj] at hmk
      rw [countsOkB, Json.get, hsa] at hok
      cases sa with
      | obj skvs =>
        rw [mkSentiment] at hmk
        rcases Bool.and_eq_true_iff.mp hok with ⟨hok1, hok3⟩
        rcases Bool.and_eq_true_iff.mp hok1 with ⟨hokp, hokn⟩
        split at hmk
        · simp at hmk
        next vp hp =>
          rw [hp] at hokp
          split at hmk
          · simp at hmk
          next p hvp =>
            split at hmk
            · simp at hmk
            next vn hn =>
              rw [hn] at hokn
              split at hmk
              · simp at hmk
              next nu hvn =>
                split at hmk
                · simp at hmk
                next vg hg =>
                  rw [hg] at hok3
                  split at hmk
                  · simp at hmk
                  next ng hvg =>
                    have hs := Except.ok.inj hmk
                    rw [← hs]
                    exact ⟨asInt_nonneg vp p hokp hvp, asInt_nonneg vn nu hokn hvn,
                      asInt_nonneg vg ng hok3 hvg⟩
      | null => simp [mkSentiment] at hmk
      | bool b => simp [mkSentiment] at hmk
      | int n => simp [mkSentiment] at hmk
      | str s => simp [mkSentiment] at hmk
      | arr xs => simp [mkSentiment] at hmk
  | null => simp [pyDictGet] at hget
  | bool b => simp [pyDictGet] at hget
  | int n => simp [pyDictGet] at hget
  | str s => simp [pyDictGet] at hget
  | arr xs => simp [pyDictGet] at hget

/-- Claim C8, amended: the assembled report's sentiment counts are
`Int`s with no sign constraint in the schema; they are non-negative
whenever every JSON object the aggregate LLM call can return carries
non-negative integer counts (and in all fallback paths, which produce
zeros).  Nothing clamps a negative count supplied by the LLM. -/
theorem C8_theorem (fb : List String) (env : ReportEnv) (r : FeedbackResponse)
    (tags : List CallTag) (henv : envAggOk env)
    (h : generate_report fb env = (.ok r, tags)) :
    0 ≤ r.sentiment.positive ∧ 0 ≤ r.sentiment.neutral ∧ 0 ≤ r.sentiment.negative := by
  rw [generate_report] at h
  split at h
  · simp at h
  next clean tags0 hfil =>
    split at h
    · simp at h
    · split at h
      · simp at h
      next analysis atags hagg =>
        split at h
        · simp at h
        next summaryJ hsumJ =>
          split at h
          · simp at h
          next countsJ hcnt =>
            split at h
            · simp at h
            next actionText stags hsumz =>
              split at h
              · simp at h
              next senti hmk =>
                split at h
                · simp at h
                next summaryStr hstr =>
                  simp at h
                  obtain ⟨hrec, _⟩ := h
                  rw [← hrec]
                  rcases comp_ok_cases clean env.aggregateOp env.maxRetries analysis
                      atags hagg with hfb | ⟨n, hn⟩
                  · subst hfb
                    exact mkSentiment_nonneg fbEmptyObj countsJ senti (by decide) hcnt hmk
                  · exact mkSentiment_nonneg analysis countsJ senti
                      (henv n analysis hn) hcnt hmk

/-- An aggregate response carrying a negative sentiment count. -/
def negAggObj : Json :=
  Json.obj [("summary", Json.str "s"),
    ("sentiment_analysis", Json.obj [("positive", Json.int (-1)), ("neutral", Json.int 0),
      ("negative", Json.int 0)])]

/-- Environment whose aggregate call returns `negAggObj`. -/
def envC8 : ReportEnv :=
  { classifyOp := fun _ _ => .apiError,
    aggregateOp := fun _ => .ok (.content (.json negAggObj)),
    summarizeOp := fun _ => .ok (.content "- do x"),
    maxRetries := 5 }

/-- The report assembled from `envC8`. -/
def reportC8 : FeedbackResponse :=
  { summary := "s", sentiment := ⟨-1, 0, 0⟩, actions := ["do x"],
    raw_feedback_count := 1, clean_feedback_count := 1 }

/-- Claim C8, counterexample to the claim as stated: nothing validates
the counts the LLM returns, so a response with `"positive": -1` flows
into the assembled report unchanged and the final count is negative. -/
theorem C8_counterexample :
    generate_report ["good"] envC8
      = (.ok reportC8, [CallTag.classify 0, CallTag.aggregate, CallTag.summarize])
    ∧ reportC8.sentiment.positive < 0 :=
  ⟨rfl, by decide⟩

/-- An aggregate response with non-negative counts. -/
def goodAggObj : Json :=
  Json.obj [("summary", Json.str "fine"),
    ("sentiment_analysis", Json.obj [("positive", Json.int 2), ("neutral", Json.int 1),
      ("negative", Json.int 0)])]

/-- Environment whose aggregate call returns `goodAggObj`. -/
def envC8w : ReportEnv :=
  { classifyOp := fun _ _ => .apiError,
    aggregateOp := fun _ => .ok (.content (.json goodAggObj)),
    summarizeOp := fun _ => .ok (.content "- do x"),
    maxRetries := 5 }

/-- The report assembled from `envC8w`. -/
def reportC8w : FeedbackResponse :=
  { summary := "fine", sentiment := ⟨2, 1, 0⟩, actions := ["do x"],
    raw_feedback_count := 1, clean_feedback_count := 1 }

/-- Witness for `C8_theorem` on a concrete well-behaved environment. -/
theorem C8_witness :
    0 ≤ reportC8w.sentiment.positive ∧ 0 ≤ reportC8w.sentiment.neutral
      ∧ 0 ≤ reportC8w.sentiment.negative :=
  C8_theorem ["good"] envC8w reportC8w
    [CallTag.classify 0, CallTag.aggregate, CallTag.summarize]
    (fun n j hn => by cases hn; decide) rfl
